import Mathlib

/-!
Verification development for the uvceed-disease-alerts signal summarization
and adaptive-window risk engine.  Python numeric values are modelled as
exact rationals, dates/epiweeks as integers, optional values as `Option`,
and the fetch collaborator of the adaptive window selector as a pure
function; each selector is instrumented to also return the ordered list of
windows it fetched.
-/

namespace Uvceed

/-- insertion of an element into an ascending list (helper for the model of
Python builtin sorting). -/
def insertAsc {α : Type} [LinearOrder α] (x : α) : List α → List α
  | [] => [x]
  | y :: ys => if x ≤ y then x :: y :: ys else y :: insertAsc x ys

/-- model of Python `sorted(...)` (ascending). -/
def pySorted {α : Type} [LinearOrder α] (l : List α) : List α :=
  l.foldr insertAsc []

/-- model of `wastewater_risk._median`: `sorted(v)[len(v) // 2]` (upper
median, no averaging), `None` on the empty list. -/
def medianUpper (vals : List ℚ) : Option ℚ :=
  if vals = [] then none
  else some ((pySorted vals).getD (vals.length / 2) 0)

/-- model of Python `statistics.median`: average of the two middle elements
for even length, middle element for odd length; the callers in this
repository guard the empty case and expect `None` there. -/
def medianStat (vals : List ℚ) : Option ℚ :=
  if vals = [] then none
  else
    let s := pySorted vals
    let n := vals.length
    if n % 2 = 1 then some (s.getD (n / 2) 0)
    else some ((s.getD (n / 2 - 1) 0 + s.getD (n / 2) 0) / 2)

theorem length_insertAsc {α : Type} [LinearOrder α] (x : α) :
    ∀ l : List α, (insertAsc x l).length = l.length + 1 := by
  intro l
  induction l with
  | nil => rfl
  | cons y ys ih =>
    simp only [insertAsc]
    split
    · simp
    · simp [ih]

theorem length_pySorted {α : Type} [LinearOrder α] (l : List α) :
    (pySorted l).length = l.length := by
  induction l with
  | nil => rfl
  | cons y ys ih => simp [pySorted, List.foldr] at ih ⊢; simp [length_insertAsc, ih]

theorem medianUpper_eq_none_iff (vals : List ℚ) :
    medianUpper vals = none ↔ vals = [] := by
  unfold medianUpper
  split <;> simp_all

theorem medianStat_eq_none_iff (vals : List ℚ) :
    medianStat vals = none ↔ vals = [] := by
  unfold medianStat
  split
  · simp_all
  · constructor
    · intro h
      simp only at h
      split at h <;> simp_all
    · simp_all

end Uvceed

namespace Uvceed

/-! Embedding of `src/uvceed_alerts/wastewater_risk.py`. -/

namespace WwRisk

/-- raw wastewater point as consumed by `build_daily_median` (day missing
models a row whose date failed to parse). -/
structure Point where
  day : Option ℤ
  conc_lin : Option ℚ
  conc : Option ℚ
deriving DecidableEq

/-- `wastewater_risk.DailyStat`. -/
structure DailyStat where
  day : ℤ
  value : ℚ
  metric : String
  n : ℕ
deriving DecidableEq

/-- `wastewater_risk.RiskResult`. -/
structure RiskResult where
  level : String
  trend : String
  confidence : String
  last7_median : Option ℚ
  prev7_median : Option ℚ
  metric : Option String
  points_used : ℕ
  note : Option String
deriving DecidableEq

/-- `wastewater_risk.build_daily_median`: group points by day, prefer the
`conc_lin` values of a day when any exist, else the `conc` values, take the
(upper) median, count contributing samples in `n`; days appear in ascending
order and days with no usable value are dropped. -/
def build_daily_median (points : List Point) : List DailyStat :=
  let days := pySorted ((points.filterMap (·.day)).dedup)
  days.filterMap (fun d =>
    let rows := points.filter (fun p => p.day == some d)
    let vals_lin := rows.filterMap (·.conc_lin)
    let vals := rows.filterMap (·.conc)
    if vals_lin ≠ [] then
      (medianUpper vals_lin).map
        (fun m => ⟨d, m, "pcr_target_avg_conc_lin", vals_lin.length⟩)
    else if vals ≠ [] then
      (medianUpper vals).map
        (fun m => ⟨d, m, "pcr_target_avg_conc", vals.length⟩)
    else none)

/-- `wastewater_risk.compute_confidence`: density heuristic over the
(already trimmed) daily series; the Python `_median(...) or 0.0` collapses
both `None` and `0.0` to `0.0`, which `getD 0` models exactly. -/
def compute_confidence (daily : List DailyStat) : String × Option String :=
  if daily = [] then ("low", some "no measurements available")
  else
    let points := daily.length
    let med_n := (medianUpper (daily.map (fun d => (d.n : ℚ)))).getD 0
    if points ≥ 18 ∧ med_n ≥ 3 then ("high", none)
    else if points ≥ 10 ∧ med_n ≥ 2 then ("medium", none)
    else ("low", some "sparse measurements (limited sampling frequency/sites)")

/-- trailing-guard trim of `compute_risk`: Python computes
`daily[:-drop_last_days] if len(daily) > drop_last_days else daily` and then
falls back to `daily` when the slice is empty.  For `drop_last_days = 0`
Python's slice `daily[:-0]` is empty and the fallback restores `daily`, so
this model (which keeps `daily` directly in that case) is extensionally
identical. -/
def effective_daily (daily : List DailyStat) (drop_last_days : ℕ) : List DailyStat :=
  let eff := if drop_last_days < daily.length
    then daily.take (daily.length - drop_last_days) else daily
  if eff = [] then daily else eff

/-- percentile-band level classification at the end of
`wastewater_risk.compute_risk`. -/
def level_of_pct_rank (pct_rank : ℚ) : String :=
  if pct_rank < 33/100 then "low"
  else if pct_rank < 67/100 then "moderate"
  else "high"

/-- trend classification of `wastewater_risk.compute_risk`:
`pct = (last7 - prev7) / abs(prev7)` with a strict ±20% deadband. -/
def trend_of_pct (l p : ℚ) : String :=
  if (l - p) / |p| > 1/5 then "rising"
  else if (l - p) / |p| < -(1/5) then "falling"
  else "stable"

/-- trend gate of `wastewater_risk.compute_risk`: classify only when both
window medians exist and the prior median is non-zero (the division is
guarded). -/
def trend_of_medians (last7 prev7 : Option ℚ) : String :=
  match last7, prev7 with
  | some l, some p => if p ≠ 0 then trend_of_pct l p else "unknown"
  | _, _ => "unknown"

/-- `wastewater_risk.compute_risk`. -/
def compute_risk (daily : List DailyStat) (drop_last_days : ℕ) : RiskResult :=
  if daily = [] then
    { level := "unknown", trend := "unknown", confidence := "low",
      last7_median := none, prev7_median := none, metric := none,
      points_used := 0, note := some "no wastewater measurements in window" }
  else
    let daily_eff := effective_daily daily drop_last_days
    let cc := compute_confidence daily_eff
    let vals := daily_eff.map (·.value)
    let points_used := vals.length
    let last7 := if points_used ≥ 14
      then medianUpper (vals.drop (points_used - 7)) else none
    let prev7 := if points_used ≥ 14
      then medianUpper ((vals.drop (points_used - 14)).take 7) else none
    let trend := trend_of_medians last7 prev7
    let current := (vals.getLast?).getD 0
    let idx := ((pySorted vals).countP (fun v => decide (v ≤ current))) - 1
    let pct_rank : ℚ := (idx : ℚ) / ((max 1 (points_used - 1) : ℕ) : ℚ)
    let note_parts :=
      (match cc.2 with | some s => [s] | none => []) ++
      (if trend = "unknown" ∧ points_used < 14
        then ["trend suppressed (insufficient data points)"] else [])
    { level := level_of_pct_rank pct_rank, trend := trend, confidence := cc.1,
      last7_median := last7, prev7_median := prev7,
      metric := (daily_eff.getLast?).map (·.metric),
      points_used := points_used,
      note := if note_parts = [] then none
        else some (String.intercalate "; " note_parts) }

/-- loop of `wastewater_risk.choose_adaptive_window`, instrumented with the
ordered list of windows passed to the fetch collaborator (second component
of the result).  `best` carries the `(best_days, best_daily, best_risk)`
triple of the source. -/
def choose_adaptive_window_go (fetch_fn : ℕ → List Point)
    (min_trend min_risk : ℕ) :
    List ℕ → (ℕ × List DailyStat × Option RiskResult) → List ℕ →
    ((ℕ × List DailyStat × RiskResult) × List ℕ)
  | [], best, fetched =>
    ((best.1, best.2.1, (best.2.2).getD (compute_risk best.2.1 2)), fetched)
  | days :: rest, _best, fetched =>
    let daily := build_daily_median (fetch_fn days)
    let fetched' := fetched ++ [days]
    if daily.length < min_risk then
      choose_adaptive_window_go fetch_fn min_trend min_risk rest
        (days, daily, some (compute_risk daily 2)) fetched'
    else
      let risk := compute_risk daily 2
      if min_trend ≤ daily.length then ((days, daily, risk), fetched')
      else
        choose_adaptive_window_go fetch_fn min_trend min_risk rest
          (days, daily, some risk) fetched'

/-- `wastewater_risk.choose_adaptive_window` (the Python initial
`best_days = windows[-1]` raises on an empty window list; the model
substitutes 0 there, and every theorem below uses a non-empty list). -/
def choose_adaptive_window (fetch_fn : ℕ → List Point) (windows : List ℕ)
    (min_trend min_risk : ℕ) :
    ((ℕ × List DailyStat × RiskResult) × List ℕ) :=
  choose_adaptive_window_go fetch_fn min_trend min_risk windows
    ((windows.getLast?).getD 0, [], none) []

end WwRisk

end Uvceed

namespace Uvceed

/-! Embedding of `src/uvceed_alerts/cdc_wastewater.py` (risk scoring, trend,
rollup and the adaptive window selector of that module). -/

namespace CdcWw

/-- `cdc_wastewater.DailyStat`. -/
structure DailyStat where
  day : ℤ
  value : ℚ
  metric : String
  n : ℕ
deriving DecidableEq

/-- `cdc_wastewater.RiskResult`. -/
structure RiskResult where
  level : String
  trend : String
  confidence : String
  metric : String
  last7_median : Option ℚ
  prev7_median : Option ℚ
  points_used : ℕ
  note : Option String
deriving DecidableEq

/-- `cdc_wastewater._rank_level` (dict lookup with default 0). -/
def rank_level (level : String) : ℕ :=
  if level = "unknown" then 0
  else if level = "low" then 1
  else if level = "moderate" then 2
  else if level = "high" then 3
  else 0

/-- `cdc_wastewater._rank_conf` (dict lookup with default 0). -/
def rank_conf (conf : String) : ℕ :=
  if conf = "low" then 0
  else if conf = "moderate" then 1
  else if conf = "high" then 2
  else 0

/-- `cdc_wastewater._trend_from_medians`: ratio against an inclusive
±15% deadband, `unknown` when either median is missing or the prior
median is zero (the division is guarded). -/
def trend_from_medians (last7 prev7 : Option ℚ) : String :=
  match last7, prev7 with
  | some l, some p =>
    if p = 0 then "unknown"
    else if l / p ≥ 23/20 then "rising"
    else if l / p ≤ 17/20 then "falling"
    else "stable"
  | _, _ => "unknown"

/-- `cdc_wastewater._risk_level_from_value`. -/
def risk_level_from_value : Option ℚ → String
  | none => "unknown"
  | some v => if v ≥ 250000 then "high" else if v ≥ 80000 then "moderate" else "low"

/-- `cdc_wastewater.compute_risk` (the Python trend expression
`trend if conf != "low" else ("unknown" if trend != "unknown" else "unknown")`
collapses to `"unknown"` whenever `conf = "low"`; `_median_safe` over the
non-optional daily values is `statistics.median` guarded by the empty
case). -/
def compute_risk (daily : List DailyStat) : RiskResult :=
  if daily = [] then
    { level := "unknown", trend := "unknown", confidence := "low",
      metric := "pcr_target_avg_conc_lin", last7_median := none,
      prev7_median := none, points_used := 0,
      note := some "no wastewater data returned" }
  else
    let values := daily.map (·.value)
    let last7 := if values.length ≥ 7
      then values.drop (values.length - 7) else values
    let prev7 := if values.length ≥ 14
      then (values.drop (values.length - 14)).take 7 else []
    let last7_med := medianStat last7
    let prev7_med := medianStat prev7
    let trend := trend_from_medians last7_med prev7_med
    let level := risk_level_from_value last7_med
    let pts := daily.length
    let conf := if pts ≥ 21 then "high" else if pts ≥ 14 then "moderate" else "low"
    { level := level,
      trend := if conf ≠ "low" then trend else "unknown",
      confidence := conf,
      metric := ((daily.getLast?).map (·.metric)).getD "pcr_target_avg_conc_lin",
      last7_median := last7_med, prev7_median := prev7_med,
      points_used := pts,
      note := if pts < 14
        then some "limited data points for trend; confidence reduced" else none }

/-- loop of `cdc_wastewater.choose_adaptive_window`, instrumented with the
ordered list of windows passed to the fetch collaborator.  `windows0` is the
original window list (needed by the fallback, which re-fetches the last
window when no candidate reached `min_risk`), `best` models the local
variable of the source (absent until some candidate reaches `min_risk`),
and `last_note` models `last_note`. -/
def choose_adaptive_window_go (fetch_fn : ℕ → List DailyStat)
    (min_trend min_risk : ℕ) (windows0 : List ℕ) :
    List ℕ → Option (ℕ × List DailyStat × RiskResult) → Option String →
    List ℕ → ((ℕ × List DailyStat × RiskResult) × List ℕ)
  | [], best, last_note, fetched =>
    match best with
    | some b => (b, fetched)
    | none =>
      match windows0.getLast? with
      | some w =>
        let daily := fetch_fn w
        let risk := compute_risk daily
        let risk' := if risk.note = none ∧ last_note ≠ none
          then { risk with note := last_note } else risk
        ((w, daily, risk'), fetched ++ [w])
      | none => ((0, [], compute_risk []), fetched)
  | w :: rest, best, _last_note, fetched =>
    let daily := fetch_fn w
    let risk := compute_risk daily
    let fetched' := fetched ++ [w]
    if min_trend ≤ risk.points_used then ((w, daily, risk), fetched')
    else if min_risk ≤ risk.points_used then
      choose_adaptive_window_go fetch_fn min_trend min_risk windows0 rest
        (some (w, daily, risk)) risk.note fetched'
    else
      choose_adaptive_window_go fetch_fn min_trend min_risk windows0 rest
        best risk.note fetched'

/-- `cdc_wastewater.choose_adaptive_window`. -/
def choose_adaptive_window (fetch_fn : ℕ → List DailyStat)
    (min_trend min_risk : ℕ) (windows : List ℕ) :
    ((ℕ × List DailyStat × RiskResult) × List ℕ) :=
  choose_adaptive_window_go fetch_fn min_trend min_risk windows windows none none []

/-- fields of `cdc_wastewater.PathogenResult` read by `rollup_overall`. -/
structure PathogenResult where
  pathogen : String
  risk : String
  trend : String
  confidence : String
  daily_points : ℕ
  composite_score : ℚ
deriving DecidableEq

/-- fields of the dict returned by `cdc_wastewater.rollup_overall` that the
specification's claims are about (the `suggestion` text and the
`per_pathogen_scores` echo map are presentation-only and not modelled). -/
structure Rollup where
  overall_level : String
  overall_trend : String
  overall_confidence : String
  overall_score : ℚ
deriving DecidableEq

/-- round-half-to-even at integer scale (the rounding mode of Python
`round`). -/
def roundHalfEven (y : ℚ) : ℤ :=
  let f := ⌊y⌋
  let r := y - f
  if r < 1/2 then f
  else if 1/2 < r then f + 1
  else if f % 2 = 0 then f else f + 1

/-- Python `round(x, 6)`. -/
def pyRound6 (q : ℚ) : ℚ := (roundHalfEven (q * 1000000) : ℚ) / 1000000

/-- one step of the `overall_level` maximum: keep the higher-ranked risk
(`if _rank_level(r.risk) > _rank_level(overall_level)`). -/
def max_level_step (acc : String) (r : PathogenResult) : String :=
  if rank_level acc < rank_level r.risk then r.risk else acc

/-- one step of the Python `min(confs, key=_rank_conf)`: keep the earlier
value unless a strictly lower-ranked one appears. -/
def min_conf_step (acc x : String) : String :=
  if rank_conf x < rank_conf acc then x else acc

/-- `cdc_wastewater.rollup_overall` on the modelled fields. -/
def rollup_overall (results : List PathogenResult) : Rollup :=
  match results with
  | [] => { overall_level := "unknown", overall_trend := "unknown",
            overall_confidence := "low", overall_score := 0 }
  | r0 :: rs =>
    let overall_level := (r0 :: rs).foldl max_level_step "unknown"
    let trends := ((r0 :: rs).filter (fun r => r.trend != "unknown")).map (·.trend)
    let overall_trend :=
      if (r0 :: rs).any (fun r => r.risk == "high" && r.trend == "rising") then "rising"
      else if "rising" ∈ trends then "rising"
      else if "falling" ∈ trends ∧ "rising" ∉ trends then "falling"
      else if "stable" ∈ trends then "stable"
      else "unknown"
    let confs := ((r0 :: rs).filter (fun r => decide (0 < r.daily_points))).map (·.confidence)
    let overall_conf :=
      match confs with
      | [] => "low"
      | c :: cs => cs.foldl min_conf_step c
    let overall_score :=
      match (r0 :: rs).map (·.composite_score) with
      | [] => (0 : ℚ)
      | s :: ss => ss.foldl max s
    { overall_level := overall_level, overall_trend := overall_trend,
      overall_confidence := overall_conf,
      overall_score := pyRound6 overall_score }

end CdcWw

end Uvceed

namespace Uvceed

/-! Embedding of `src/uvceed_alerts/cdc_fluview_ilinet.py` (trend classifier
and revision resolution). -/

namespace Ilinet

/-- `cdc_fluview_ilinet._trend`: ratio with inclusive ±15% deadband, label
`flat` inside the band; `unknown` when an aggregate is missing or the prior
is zero (the division is guarded). -/
def trend (last3 prev3 : Option ℚ) : String :=
  match last3, prev3 with
  | some l, some p =>
    if p = 0 then "unknown"
    else if l / p ≥ 23/20 then "rising"
    else if l / p ≤ 17/20 then "falling"
    else "flat"
  | _, _ => "unknown"

/-- Delphi FluView row as consumed by `_latest_issue_per_epiweek`:
`epiweek = none` models a row whose `epiweek` field fails `int(...)`
(the row is skipped), `issue = none` models a missing `issue` field
(Python substitutes 0 via `row.get("issue", 0)`), and `wili` stands for the
remaining payload of the row. -/
structure EpiRow where
  epiweek : Option ℤ
  issue : Option ℤ
  wili : Option ℚ
deriving DecidableEq

/-- effective issue id of a row, `int(row.get("issue", 0))`. -/
def issue0 (r : EpiRow) : ℤ := (r.issue).getD 0

/-- one `best[ew] = row` update of `_latest_issue_per_epiweek`: replace the
entry for `ew` when the new issue is strictly larger, insert when the key is
absent. -/
def bestInsert (ew : ℤ) (r : EpiRow) : List (ℤ × EpiRow) → List (ℤ × EpiRow)
  | [] => [(ew, r)]
  | (k, v) :: rest =>
    if k = ew then
      (if issue0 v < issue0 r then (k, r) :: rest else (k, v) :: rest)
    else (k, v) :: bestInsert ew r rest

/-- one loop iteration of `_latest_issue_per_epiweek`: a row whose
`epiweek` fails to parse is skipped, otherwise `best[ew]` is updated. -/
def bestStep (best : List (ℤ × EpiRow)) (r : EpiRow) : List (ℤ × EpiRow) :=
  match r.epiweek with
  | none => best
  | some ew => bestInsert ew r best

/-- the `best` dict after the loop of `_latest_issue_per_epiweek`, as an
association list in key-insertion order. -/
def bestFold (rows : List EpiRow) : List (ℤ × EpiRow) :=
  rows.foldl bestStep []

/-- dict indexing `best[k]` on the association-list model. -/
def assocFind (k : ℤ) : List (ℤ × EpiRow) → Option EpiRow
  | [] => none
  | (a, v) :: rest => if k = a then some v else assocFind k rest

/-- `cdc_fluview_ilinet._latest_issue_per_epiweek`:
`[best[k] for k in sorted(best.keys())]`. -/
def latest_issue_per_epiweek (rows : List EpiRow) : List EpiRow :=
  (pySorted ((bestFold rows).map Prod.fst)).filterMap
    (fun k => assocFind k (bestFold rows))

end Ilinet

/-! Embedding of `src/uvceed_alerts/cdc_nssp_ed_trajectories.py`
(series summary: aggregates, trend, risk, confidence). -/

namespace NsspTraj

/-- `cdc_nssp_ed_trajectories._confidence_from_points`. -/
def confidence_from_points (n_points : ℕ) : String :=
  if n_points ≥ 12 then "high"
  else if n_points ≥ 6 then "moderate"
  else "low"

/-- `cdc_nssp_ed_trajectories._trend_from_medians`: strict multiplicative
deadband `last3 > prev3 * 1.15` / `last3 < prev3 * 0.85`; `unknown` when an
aggregate is missing or the prior is zero. -/
def trend_from_medians (last3 prev3 : Option ℚ) : String :=
  match last3, prev3 with
  | some l, some p =>
    if p = 0 then "unknown"
    else if l > p * (23/20) then "rising"
    else if l < p * (17/20) then "falling"
    else "flat"
  | _, _ => "unknown"

/-- `cdc_nssp_ed_trajectories._risk_from_latest`. -/
def risk_from_latest (latest : Option ℚ) (pathogen : String) : String :=
  match latest with
  | none => "unknown"
  | some v =>
    if pathogen = "covid" then
      (if v ≥ 3/2 then "high" else if v ≥ 4/5 then "moderate" else "low")
    else if pathogen = "flu" then
      (if v ≥ 3 then "high" else if v ≥ 3/2 then "moderate" else "low")
    else if pathogen = "rsv" then
      (if v ≥ 2 then "high" else if v ≥ 1 then "moderate" else "low")
    else if pathogen = "combined" then
      (if v ≥ 6 then "high" else if v ≥ 3 then "moderate" else "low")
    else "unknown"

/-- fields of the dict returned by `summarize_series` (the fixed `metric`
string is not modelled). -/
structure Summary where
  recent_points : ℕ
  last3_median : Option ℚ
  prev3_median : Option ℚ
  risk : String
  trend : String
  confidence : String
  note : Option String
deriving DecidableEq

/-- `cdc_nssp_ed_trajectories.summarize_series`: the series is newest-first,
`last3` is only computed from the first 3 values when at least 3 points
exist, `prev3` only from values 3..5 when at least 6 exist. -/
def summarize_series (series : List (ℤ × ℚ)) (pathogen : String) : Summary :=
  let values := series.map Prod.snd
  let n_points := values.length
  let conf := confidence_from_points n_points
  let last3 := if n_points ≥ 3 then medianStat (values.take 3) else none
  let prev3 := if n_points ≥ 6 then medianStat ((values.drop 3).take 3) else none
  let trend := trend_from_medians last3 prev3
  let latest := values.head?
  let risk := risk_from_latest latest pathogen
  { recent_points := n_points,
    last3_median := last3, prev3_median := prev3,
    risk := if n_points ≥ 1 then risk else "unknown",
    trend := if n_points ≥ 6 then trend else "unknown",
    confidence := conf,
    note := if n_points < 6
      then some "Insufficient data points (need >= 6 weeks) for stable medians/trend."
      else none }

end NsspTraj

/-! Embedding of `src/uvceed_alerts/cdc_nssp_ed_visits.py` (categorical
trend labelling). -/

namespace EdVisits

/-- Python falsiness of an optional string (`None` or the empty string). -/
def falsy : Option String → Prop
  | none => True
  | some s => s = ""

instance : DecidablePred falsy := by
  intro x
  unfold falsy
  match x with
  | none => exact inferInstanceAs (Decidable True)
  | some s => exact inferInstanceAs (Decidable (s = ""))

/-- `cdc_nssp_ed_visits._trend_label`.  The source first branches on
`last3_mode == prev3_mode`, but both branches map `last3_mode` alone
(`Increasing -> rising`, `Decreasing -> falling`, `Stable -> stable`,
anything else `unknown`); the branch structure is kept as written. -/
def trend_label (last3_mode prev3_mode : Option String) : String :=
  if falsy last3_mode ∨ falsy prev3_mode then "unknown"
  else if last3_mode = prev3_mode then
    (if last3_mode = some "Increasing" then "rising"
     else if last3_mode = some "Decreasing" then "falling"
     else if last3_mode = some "Stable" then "stable"
     else "unknown")
  else
    (if last3_mode = some "Increasing" then "rising"
     else if last3_mode = some "Decreasing" then "falling"
     else if last3_mode = some "Stable" then "stable"
     else "unknown")

end EdVisits

end Uvceed

namespace Uvceed

/-! Shared helper lemmas about the embedded functions. -/

theorem level_of_pct_rank_mem (r : ℚ) :
    WwRisk.level_of_pct_rank r ∈ (["unknown", "low", "moderate", "high"] : List String) := by
  unfold WwRisk.level_of_pct_rank
  split
  · simp
  · split <;> simp

theorem trend_of_pct_mem (l p : ℚ) :
    WwRisk.trend_of_pct l p ∈ (["unknown", "rising", "falling", "stable"] : List String) := by
  unfold WwRisk.trend_of_pct
  split
  · simp
  · split <;> simp

theorem trend_of_medians_mem (x y : Option ℚ) :
    WwRisk.trend_of_medians x y ∈ (["unknown", "rising", "falling", "stable"] : List String) := by
  cases x <;> cases y <;> simp only [WwRisk.trend_of_medians]
  · simp
  · simp
  · simp
  · split
    · exact trend_of_pct_mem _ _
    · simp

theorem compute_confidence_fst_mem (d : List WwRisk.DailyStat) :
    (WwRisk.compute_confidence d).1 ∈ (["low", "medium", "high"] : List String) := by
  unfold WwRisk.compute_confidence
  split
  · simp
  · dsimp only
    split
    · simp
    · split <;> simp

/-- the trend field of `wastewater_risk.compute_risk` is the gated
classification of its own reported window medians. -/
theorem compute_risk_trend_spec (daily : List WwRisk.DailyStat) (drop : ℕ) :
    (WwRisk.compute_risk daily drop).trend =
      WwRisk.trend_of_medians (WwRisk.compute_risk daily drop).last7_median
        (WwRisk.compute_risk daily drop).prev7_median := by
  unfold WwRisk.compute_risk
  split <;> rfl

theorem cw_trend_from_medians_mem (x y : Option ℚ) :
    CdcWw.trend_from_medians x y ∈ (["unknown", "rising", "falling", "stable"] : List String) := by
  cases x <;> cases y <;> simp only [CdcWw.trend_from_medians]
  · simp
  · simp
  · simp
  · split
    · simp
    · split
      · simp
      · split <;> simp

theorem cw_risk_level_from_value_mem (x : Option ℚ) :
    CdcWw.risk_level_from_value x ∈ (["unknown", "low", "moderate", "high"] : List String) := by
  cases x <;> simp only [CdcWw.risk_level_from_value]
  · simp
  · split
    · simp
    · split <;> simp

end Uvceed

namespace Uvceed

/-! Claim C5. -/

/-- C5 counterexample: the claim says equal ordinal ranks yield `stable` and
a rank decrease yields `falling`, but `_trend_label` returns `rising` for
two equal `Increasing` modes and `stable` when the mode drops from
`Increasing` to `Stable`. -/
theorem C5_counterexample :
    EdVisits.trend_label (some "Increasing") (some "Increasing") = "rising" ∧
    EdVisits.trend_label (some "Stable") (some "Increasing") = "stable" ∧
    "rising" ≠ "stable" ∧ "stable" ≠ "falling" := by
  refine ⟨by decide, by decide, by decide, by decide⟩

/-- C5 (amended): for two resolvable modes, `_trend_label` is determined by
`last3_mode` alone (`Increasing -> rising`, `Decreasing -> falling`,
`Stable -> stable`, anything else `unknown`); `prev3_mode` only gates the
`unknown` case for unresolvable modes. -/
theorem C5_trend_label_from_last3 :
    ∀ l p : Option String, ¬ EdVisits.falsy l → ¬ EdVisits.falsy p →
      EdVisits.trend_label l p =
        (if l = some "Increasing" then "rising"
         else if l = some "Decreasing" then "falling"
         else if l = some "Stable" then "stable"
         else "unknown") := by
  intro l p hl hp
  unfold EdVisits.trend_label
  rw [if_neg (not_or.mpr ⟨hl, hp⟩), ite_self]

/-- C5 witness: the amended theorem applied at
`last3_mode = "Increasing"`, `prev3_mode = "Stable"`. -/
theorem C5_witness :
    EdVisits.trend_label (some "Increasing") (some "Stable") = "rising" := by
  have h := C5_trend_label_from_last3 (some "Increasing") (some "Stable")
    (by simp [EdVisits.falsy]) (by simp [EdVisits.falsy])
  simpa using h

end Uvceed

namespace Uvceed

/-! Claim C2. -/

/-- sixteen-point daily series whose effective (trimmed) window has a
last-7 median of 116 and a previous-7 median of 100, a ratio of 1.16. -/
def c2Daily : List WwRisk.DailyStat :=
  (List.range 16).map
    (fun i => ⟨(i : ℤ), if i < 7 then 100 else 116, "pcr_target_avg_conc_lin", 1⟩)

/-- C2 counterexample: for the wastewater daily series `c2Daily` both
aggregates are present, the prior is non-zero, and the ratio 116/100 lies
above the claimed 1.15 `rising` threshold, yet `wastewater_risk.compute_risk`
labels the trend `stable` (it uses a ±20% relative-change deadband, not the
ratio rule the claim states for every continuous signal). -/
theorem C2_counterexample :
    (WwRisk.compute_risk c2Daily 2).last7_median = some 116 ∧
    (WwRisk.compute_risk c2Daily 2).prev7_median = some 100 ∧
    (100 : ℚ) ≠ 0 ∧ (116 : ℚ) / 100 ≥ 23/20 ∧
    (WwRisk.compute_risk c2Daily 2).trend = "stable" := by
  refine ⟨by decide, by decide, by norm_num, by norm_num, ?_⟩
  rw [compute_risk_trend_spec,
    (by decide : (WwRisk.compute_risk c2Daily 2).last7_median = some 116),
    (by decide : (WwRisk.compute_risk c2Daily 2).prev7_median = some 100)]
  simp only [WwRisk.trend_of_medians, WwRisk.trend_of_pct]
  rw [if_pos (by norm_num : (100 : ℚ) ≠ 0)]
  rw [if_neg (by rw [abs_of_pos] <;> norm_num), if_neg (by rw [abs_of_pos] <;> norm_num)]

/-- C2 (amended): the trend classifiers per signal type.  ILINet `_trend`
and `cdc_wastewater._trend_from_medians` use the ratio rule with inclusive
1.15/0.85 thresholds (labels `flat` resp. `stable` inside the deadband);
`cdc_nssp_ed_trajectories._trend_from_medians` uses strict multiplicative
comparisons; `wastewater_risk.compute_risk` instead classifies the relative
change `(last7 - prev7)/|prev7|` against a strict ±20% deadband.  All of
them return `unknown` when either aggregate is missing or the prior is
zero, and the division is always guarded. -/
theorem C2_trend_classifiers :
    (∀ l p : ℚ, p ≠ 0 →
      Ilinet.trend (some l) (some p) =
        (if l / p ≥ 23/20 then "rising"
         else if l / p ≤ 17/20 then "falling" else "flat"))
    ∧ (∀ l p : ℚ, p ≠ 0 →
      CdcWw.trend_from_medians (some l) (some p) =
        (if l / p ≥ 23/20 then "rising"
         else if l / p ≤ 17/20 then "falling" else "stable"))
    ∧ (∀ l p : ℚ, p ≠ 0 →
      NsspTraj.trend_from_medians (some l) (some p) =
        (if l > p * (23/20) then "rising"
         else if l < p * (17/20) then "falling" else "flat"))
    ∧ (∀ x : Option ℚ,
      Ilinet.trend x none = "unknown" ∧ Ilinet.trend none x = "unknown" ∧
      CdcWw.trend_from_medians x none = "unknown" ∧
      CdcWw.trend_from_medians none x = "unknown" ∧
      NsspTraj.trend_from_medians x none = "unknown" ∧
      NsspTraj.trend_from_medians none x = "unknown")
    ∧ (∀ l : ℚ, Ilinet.trend (some l) (some 0) = "unknown" ∧
      CdcWw.trend_from_medians (some l) (some 0) = "unknown" ∧
      NsspTraj.trend_from_medians (some l) (some 0) = "unknown")
    ∧ (∀ (daily : List WwRisk.DailyStat) (drop : ℕ) (l p : ℚ),
      (WwRisk.compute_risk daily drop).last7_median = some l →
      (WwRisk.compute_risk daily drop).prev7_median = some p →
      p ≠ 0 →
      (WwRisk.compute_risk daily drop).trend =
        (if (l - p) / |p| > 1/5 then "rising"
         else if (l - p) / |p| < -(1/5) then "falling" else "stable")) := by
  refine ⟨?_, ?_, ?_, ?_, ?_, ?_⟩
  · intro l p hp
    simp [Ilinet.trend, hp]
  · intro l p hp
    simp [CdcWw.trend_from_medians, hp]
  · intro l p hp
    simp [NsspTraj.trend_from_medians, hp]
  · intro x
    refine ⟨?_, ?_, ?_, ?_, ?_, ?_⟩ <;> cases x <;> rfl
  · intro l
    refine ⟨by simp [Ilinet.trend], by simp [CdcWw.trend_from_medians],
      by simp [NsspTraj.trend_from_medians]⟩
  · intro daily drop l p hl hp hpne
    rw [compute_risk_trend_spec, hl, hp]
    simp [WwRisk.trend_of_medians, WwRisk.trend_of_pct, hpne]

/-- C2 witness: the amended theorem applied at concrete aggregates for each
classifier, and at the concrete series `c2Daily` for the wastewater_risk
variant. -/
theorem C2_witness :
    Ilinet.trend (some 2) (some 1) = "rising" ∧
    CdcWw.trend_from_medians (some 1) (some 2) = "falling" ∧
    NsspTraj.trend_from_medians (some (23/20)) (some 1) = "flat" ∧
    (WwRisk.compute_risk c2Daily 2).trend = "stable" := by
  have h := C2_trend_classifiers
  refine ⟨?_, ?_, ?_, ?_⟩
  · rw [h.1 2 1 (by norm_num)]
    norm_num
  · rw [h.2.1 1 2 (by norm_num)]
    norm_num
  · rw [h.2.2.1 (23/20) 1 (by norm_num)]
    norm_num
  · rw [h.2.2.2.2.2 c2Daily 2 116 100 (by decide) (by decide) (by norm_num)]
    rw [if_neg (by rw [abs_of_pos] <;> norm_num), if_neg (by rw [abs_of_pos] <;> norm_num)]

end Uvceed

namespace Uvceed

/-! Claim C10. -/

/-- C10: in `cdc_wastewater.compute_risk`, a `low` confidence always comes
with an `unknown` trend; for a non-empty series `low` confidence is exactly
the fewer-than-14-points case, and a non-`unknown` trend is only returned
with `moderate` or `high` confidence. -/
theorem C10_low_confidence_trend_unknown :
    ∀ daily : List CdcWw.DailyStat,
      ((CdcWw.compute_risk daily).confidence = "low" →
        (CdcWw.compute_risk daily).trend = "unknown")
      ∧ (daily ≠ [] →
        ((CdcWw.compute_risk daily).confidence = "low" ↔ daily.length < 14))
      ∧ ((CdcWw.compute_risk daily).trend ≠ "unknown" →
        (CdcWw.compute_risk daily).confidence = "moderate" ∨
        (CdcWw.compute_risk daily).confidence = "high") := by
  intro daily
  by_cases hd : daily = []
  · subst hd
    refine ⟨fun _ => rfl, fun h => absurd rfl h, fun h => absurd rfl h⟩
  · simp only [CdcWw.compute_risk, if_neg hd]
    by_cases h21 : daily.length ≥ 21
    · rw [if_pos h21]
      refine ⟨fun h => absurd h (by simp), fun _ => ?_, fun _ => Or.inr rfl⟩
      constructor
      · intro h
        exact absurd h (by simp)
      · intro h
        omega
    · rw [if_neg h21]
      by_cases h14 : daily.length ≥ 14
      · rw [if_pos h14]
        refine ⟨fun h => absurd h (by simp), fun _ => ?_, fun _ => Or.inl rfl⟩
        constructor
        · intro h
          exact absurd h (by simp)
        · intro h
          omega
      · rw [if_neg h14]
        refine ⟨fun _ => ?_, fun _ => ?_, fun h => ?_⟩
        · rw [if_neg (by simp)]
        · constructor
          · intro _
            omega
          · intro _
            rfl
        · rw [if_neg (by simp)] at h
          exact absurd rfl h

/-- five-point daily series (low confidence). -/
def c10Daily : List CdcWw.DailyStat :=
  (List.range 5).map (fun i => ⟨(i : ℤ), 100, "pcr_target_avg_conc_lin", 1⟩)

/-- C10 witness: the theorem applied to a concrete five-point series whose
confidence evaluates to `low`. -/
theorem C10_witness : (CdcWw.compute_risk c10Daily).trend = "unknown" := by
  exact (C10_low_confidence_trend_unknown c10Daily).1 (by decide)

end Uvceed

namespace Uvceed

/-! Claim C6. -/

/-- membership helper: the gated trend of `cdc_wastewater.compute_risk`
ranges over the valid trend labels. -/
theorem cw_gated_trend_mem (c : Prop) [Decidable c] (x y : Option ℚ) :
    (if c then CdcWw.trend_from_medians x y else "unknown") ∈
      (["unknown", "rising", "falling", "stable"] : List String) := by
  split
  · exact cw_trend_from_medians_mem x y
  · simp

/-- membership helper: the point-count confidence of
`cdc_wastewater.compute_risk` ranges over the valid labels. -/
theorem cw_conf_mem (n : ℕ) :
    (if n ≥ 21 then "high" else if n ≥ 14 then "moderate" else "low") ∈
      (["low", "moderate", "high"] : List String) := by
  split
  · simp
  · split <;> simp

/-- C6: both wastewater risk computations are total Lean functions of the
observation collection (the embedding of each is a total function, never an
exception), the empty collection maps to exactly the
`unknown`/`unknown`/`low` assessment with a non-empty no-data note, and for
every input the produced fields range over the valid enumerations. -/
theorem C6_empty_and_valid :
    WwRisk.compute_risk [] 2 =
      { level := "unknown", trend := "unknown", confidence := "low",
        last7_median := none, prev7_median := none, metric := none,
        points_used := 0, note := some "no wastewater measurements in window" }
    ∧ CdcWw.compute_risk [] =
      { level := "unknown", trend := "unknown", confidence := "low",
        metric := "pcr_target_avg_conc_lin", last7_median := none,
        prev7_median := none, points_used := 0,
        note := some "no wastewater data returned" }
    ∧ "no wastewater measurements in window" ≠ ""
    ∧ "no wastewater data returned" ≠ ""
    ∧ (∀ (daily : List WwRisk.DailyStat) (drop : ℕ),
        (WwRisk.compute_risk daily drop).level ∈
          (["unknown", "low", "moderate", "high"] : List String)
        ∧ (WwRisk.compute_risk daily drop).trend ∈
          (["unknown", "rising", "falling", "stable"] : List String)
        ∧ (WwRisk.compute_risk daily drop).confidence ∈
          (["low", "medium", "high"] : List String))
    ∧ (∀ daily : List CdcWw.DailyStat,
        (CdcWw.compute_risk daily).level ∈
          (["unknown", "low", "moderate", "high"] : List String)
        ∧ (CdcWw.compute_risk daily).trend ∈
          (["unknown", "rising", "falling", "stable"] : List String)
        ∧ (CdcWw.compute_risk daily).confidence ∈
          (["low", "moderate", "high"] : List String)) := by
  refine ⟨rfl, rfl, by decide, by decide, ?_, ?_⟩
  · intro daily drop
    by_cases hd : daily = []
    · subst hd
      refine ⟨by simp [WwRisk.compute_risk], by simp [WwRisk.compute_risk],
        by simp [WwRisk.compute_risk]⟩
    · simp only [WwRisk.compute_risk, if_neg hd]
      exact ⟨level_of_pct_rank_mem _, trend_of_medians_mem _ _,
        compute_confidence_fst_mem _⟩
  · intro daily
    by_cases hd : daily = []
    · subst hd
      refine ⟨by simp [CdcWw.compute_risk], by simp [CdcWw.compute_risk],
        by simp [CdcWw.compute_risk]⟩
    · simp only [CdcWw.compute_risk, if_neg hd]
      refine ⟨cw_risk_level_from_value_mem _, ?_, ?_⟩
      · exact cw_gated_trend_mem _ _ _
      · exact cw_conf_mem _

end Uvceed

namespace Uvceed

/-! Claim C3. -/

/-- five-point wastewater_risk daily series. -/
def c3Daily : List WwRisk.DailyStat :=
  (List.range 5).map (fun i => ⟨(i : ℤ), 100, "pcr_target_avg_conc_lin", 1⟩)

/-- C3 counterexample: the claim says the recent aggregate is `None` iff the
series is empty, computed from however many of the last `recent_n` points
are available.  But `summarize_series` on a non-empty one-point series
returns `last3_median = None`, and `wastewater_risk.compute_risk` on a
non-empty five-point series returns `last7_median = None`. -/
theorem C3_counterexample :
    ([((0 : ℤ), (5 : ℚ))] : List (ℤ × ℚ)) ≠ []
    ∧ (NsspTraj.summarize_series [((0 : ℤ), (5 : ℚ))] "flu").recent_points = 1
    ∧ (NsspTraj.summarize_series [((0 : ℤ), (5 : ℚ))] "flu").last3_median = none
    ∧ c3Daily ≠ []
    ∧ (WwRisk.compute_risk c3Daily 2).points_used = 3
    ∧ (WwRisk.compute_risk c3Daily 2).last7_median = none := by
  refine ⟨by decide, by decide, by decide, by decide, by decide, by decide⟩

/-- C3 (amended): the prior aggregate is `None` whenever fewer than
`recent_n + prior_n` points exist, in every implementation.  But the recent
aggregate is `None` iff the series is empty only in
`cdc_wastewater.compute_risk`; `summarize_series` requires at least 3
points for `last3_median`, and `wastewater_risk.compute_risk` requires at
least 14 effective points for both window medians. -/
theorem C3_aggregate_availability :
    (∀ daily : List CdcWw.DailyStat,
      ((CdcWw.compute_risk daily).last7_median = none ↔ daily = [])
      ∧ (daily.length < 14 → (CdcWw.compute_risk daily).prev7_median = none))
    ∧ (∀ (series : List (ℤ × ℚ)) (pathogen : String),
      (series.length < 3 →
        (NsspTraj.summarize_series series pathogen).last3_median = none)
      ∧ (3 ≤ series.length →
        (NsspTraj.summarize_series series pathogen).last3_median ≠ none)
      ∧ (series.length < 6 →
        (NsspTraj.summarize_series series pathogen).prev3_median = none))
    ∧ (∀ (daily : List WwRisk.DailyStat) (drop : ℕ),
      ((WwRisk.compute_risk daily drop).points_used < 14 →
        (WwRisk.compute_risk daily drop).last7_median = none
        ∧ (WwRisk.compute_risk daily drop).prev7_median = none)
      ∧ (14 ≤ (WwRisk.compute_risk daily drop).points_used →
        (WwRisk.compute_risk daily drop).last7_median ≠ none
        ∧ (WwRisk.compute_risk daily drop).prev7_median ≠ none)) := by
  refine ⟨?_, ?_, ?_⟩
  · intro daily
    by_cases hd : daily = []
    · subst hd
      exact ⟨by simp [CdcWw.compute_risk], fun _ => by simp [CdcWw.compute_risk]⟩
    · simp only [CdcWw.compute_risk, if_neg hd, List.length_map]
      constructor
      · rw [medianStat_eq_none_iff]
        constructor
        · intro h
          split at h
          · have hlen := congrArg List.length h
            simp [List.length_drop] at hlen
            omega
          · simpa using h
        · intro h
          exact absurd h hd
      · intro h14
        rw [if_neg (by omega)]
        rfl
  · intro series pathogen
    simp only [NsspTraj.summarize_series, List.length_map]
    refine ⟨?_, ?_, ?_⟩
    · intro h
      rw [if_neg (by omega)]
    · intro h
      rw [if_pos (by omega)]
      intro hnone
      rw [medianStat_eq_none_iff] at hnone
      have hlen := congrArg List.length hnone
      rw [List.length_take] at hlen
      simp only [List.length_map, List.length_nil] at hlen
      omega
    · intro h
      rw [if_neg (by omega)]
  · intro daily drop
    by_cases hd : daily = []
    · subst hd
      constructor
      · intro _
        exact ⟨rfl, rfl⟩
      · intro h
        simp [WwRisk.compute_risk] at h
    · constructor
      · intro hlt
        simp only [WwRisk.compute_risk, if_neg hd, List.length_map] at hlt ⊢
        rw [if_neg (by omega), if_neg (by omega)]
        exact ⟨rfl, rfl⟩
      · intro hge
        simp only [WwRisk.compute_risk, if_neg hd, List.length_map] at hge ⊢
        rw [if_pos (by omega), if_pos (by omega)]
        constructor
        · intro hnone
          rw [medianUpper_eq_none_iff] at hnone
          have hlen := congrArg List.length hnone
          simp [List.length_drop] at hlen
          omega
        · intro hnone
          rw [medianUpper_eq_none_iff] at hnone
          have hlen := congrArg List.length hnone
          simp [List.length_drop] at hlen
          omega

/-- C3 witness: the amended theorem applied to concrete series. -/
theorem C3_witness :
    (CdcWw.compute_risk c10Daily).prev7_median = none
    ∧ (NsspTraj.summarize_series [((0 : ℤ), (5 : ℚ))] "flu").prev3_median = none
    ∧ (WwRisk.compute_risk c3Daily 2).prev7_median = none := by
  have h := C3_aggregate_availability
  exact ⟨(h.1 c10Daily).2 (by decide),
    (h.2.1 [((0 : ℤ), (5 : ℚ))] "flu").2.2 (by decide),
    ((h.2.2 c3Daily 2).1 (by decide)).2⟩

end Uvceed

namespace Uvceed

/-! Claim C4. -/

/-- median per-bucket raw sample count of a daily series (the `med_n` of
`compute_confidence`, with `None` collapsed to 0). -/
def median_n (d : List WwRisk.DailyStat) : ℚ :=
  (medianUpper (d.map (fun s => (s.n : ℚ)))).getD 0

theorem effective_daily_ne_nil (daily : List WwRisk.DailyStat) (drop : ℕ)
    (hd : daily ≠ []) : WwRisk.effective_daily daily drop ≠ [] := by
  unfold WwRisk.effective_daily
  dsimp only
  split <;> (try split) <;> first | exact hd | assumption

theorem compute_confidence_cases (d : List WwRisk.DailyStat) (hd : d ≠ []) :
    ((WwRisk.compute_confidence d).1 = "high" ↔
      d.length ≥ 18 ∧ median_n d ≥ 3)
    ∧ ((WwRisk.compute_confidence d).1 = "medium" ↔
      ¬(d.length ≥ 18 ∧ median_n d ≥ 3) ∧ d.length ≥ 10 ∧ median_n d ≥ 2)
    ∧ ((WwRisk.compute_confidence d).1 = "low" ↔
      ¬(d.length ≥ 18 ∧ median_n d ≥ 3) ∧
      ¬(d.length ≥ 10 ∧ median_n d ≥ 2)) := by
  simp only [WwRisk.compute_confidence, if_neg hd]
  by_cases hA : d.length ≥ 18 ∧ median_n d ≥ 3
  · rw [if_pos (by exact hA)]
    refine ⟨by simp [hA], by simp [hA], by simp [hA]⟩
  · rw [if_neg (by exact hA)]
    by_cases hB : d.length ≥ 10 ∧ median_n d ≥ 2
    · rw [if_pos (by exact hB)]
      refine ⟨by simp [hA], by simp [hA, hB], by simp [hB]⟩
    · rw [if_neg (by exact hB)]
      refine ⟨by simp [hA], by simp [hB], by simp [hA, hB]⟩

/-- twenty-two daily points with a single raw sample per bucket. -/
def cwDaily22 : List CdcWw.DailyStat :=
  (List.range 22).map (fun i => ⟨(i : ℤ), 100, "pcr_target_avg_conc_lin", 1⟩)

/-- C4 counterexample: `cdc_wastewater.compute_risk` on a 22-point series
whose every bucket has `n = 1`.  The claimed rule (trailing-2 trim, then
`high` iff at least 18 points and median `n` at least 3, `moderate` iff at
least 10 points and median `n` at least 2, else `low`) yields `low` for
this input — the median sample count 1 fails both density conditions — and
an effective point count of 20.  The cited code applies no trim
(`points_used = 22`) and ignores sample density, returning `high` from its
pure point-count cascade (`pts >= 21`). -/
theorem C4_counterexample :
    cwDaily22.length = 22
    ∧ (medianUpper (cwDaily22.map (fun d => (d.n : ℚ)))).getD 0 = 1
    ∧ ¬((1 : ℚ) ≥ 3) ∧ ¬((1 : ℚ) ≥ 2)
    ∧ (CdcWw.compute_risk cwDaily22).points_used = 22
    ∧ (CdcWw.compute_risk cwDaily22).confidence = "high"
    ∧ "high" ≠ "low" := by
  refine ⟨by decide, by decide, by norm_num, by norm_num, by decide, by decide, by decide⟩

/-- C4 (amended): the density-based confidence with the trailing-2-bucket
trim is the rule of `wastewater_risk.compute_risk` only: there, for a
non-empty daily series, confidence is computed on the series with the
trailing two buckets dropped, with `high` exactly when the effective series
has at least 18 points and a median per-bucket sample count of at least 3,
`medium` exactly when it is not `high` but has at least 10 points and
median sample count at least 2, and `low` otherwise; and the level/trend
classification reads only that same trimmed series.
`cdc_wastewater.compute_risk` instead applies no trailing trim
(`points_used` is the full series length) and grades confidence by point
count alone: `high` iff at least 21 points, `moderate` iff between 14 and
20 points, `low` iff fewer than 14, ignoring per-bucket sample counts. -/
theorem C4_confidence_rules :
    (∀ daily : List WwRisk.DailyStat, daily ≠ [] →
      (WwRisk.compute_risk daily 2).confidence =
        (WwRisk.compute_confidence (WwRisk.effective_daily daily 2)).1
      ∧ (WwRisk.compute_risk daily 2).points_used =
        (WwRisk.effective_daily daily 2).length
      ∧ ((WwRisk.compute_risk daily 2).confidence = "high" ↔
          (WwRisk.effective_daily daily 2).length ≥ 18 ∧
          median_n (WwRisk.effective_daily daily 2) ≥ 3)
      ∧ ((WwRisk.compute_risk daily 2).confidence = "medium" ↔
          ¬((WwRisk.effective_daily daily 2).length ≥ 18 ∧
            median_n (WwRisk.effective_daily daily 2) ≥ 3) ∧
          (WwRisk.effective_daily daily 2).length ≥ 10 ∧
          median_n (WwRisk.effective_daily daily 2) ≥ 2)
      ∧ ((WwRisk.compute_risk daily 2).confidence = "low" ↔
          ¬((WwRisk.effective_daily daily 2).length ≥ 18 ∧
            median_n (WwRisk.effective_daily daily 2) ≥ 3) ∧
          ¬((WwRisk.effective_daily daily 2).length ≥ 10 ∧
            median_n (WwRisk.effective_daily daily 2) ≥ 2)))
    ∧ (∀ d1 d2 : List WwRisk.DailyStat, d1 ≠ [] → d2 ≠ [] →
        WwRisk.effective_daily d1 2 = WwRisk.effective_daily d2 2 →
        (WwRisk.compute_risk d1 2).level = (WwRisk.compute_risk d2 2).level
        ∧ (WwRisk.compute_risk d1 2).trend = (WwRisk.compute_risk d2 2).trend
        ∧ (WwRisk.compute_risk d1 2).confidence =
          (WwRisk.compute_risk d2 2).confidence
        ∧ (WwRisk.compute_risk d1 2).last7_median =
          (WwRisk.compute_risk d2 2).last7_median
        ∧ (WwRisk.compute_risk d1 2).prev7_median =
          (WwRisk.compute_risk d2 2).prev7_median
        ∧ (WwRisk.compute_risk d1 2).points_used =
          (WwRisk.compute_risk d2 2).points_used)
    ∧ (∀ daily : List CdcWw.DailyStat, daily ≠ [] →
        (CdcWw.compute_risk daily).points_used = daily.length
        ∧ ((CdcWw.compute_risk daily).confidence = "high" ↔ daily.length ≥ 21)
        ∧ ((CdcWw.compute_risk daily).confidence = "moderate" ↔
            ¬(daily.length ≥ 21) ∧ daily.length ≥ 14)
        ∧ ((CdcWw.compute_risk daily).confidence = "low" ↔ daily.length < 14)) := by
  refine ⟨?_, ?_, ?_⟩
  · intro daily hd
    have heff := effective_daily_ne_nil daily 2 hd
    have hcc := compute_confidence_cases (WwRisk.effective_daily daily 2) heff
    have hconf : (WwRisk.compute_risk daily 2).confidence =
        (WwRisk.compute_confidence (WwRisk.effective_daily daily 2)).1 := by
      simp only [WwRisk.compute_risk, if_neg hd]
    refine ⟨hconf, ?_, ?_, ?_, ?_⟩
    · simp only [WwRisk.compute_risk, if_neg hd, List.length_map]
    · rw [hconf]
      exact hcc.1
    · rw [hconf]
      exact hcc.2.1
    · rw [hconf]
      exact hcc.2.2
  · intro d1 d2 h1 h2 heq
    simp [WwRisk.compute_risk, if_neg h1, if_neg h2, heq]
  · intro daily hd
    simp only [CdcWw.compute_risk, if_neg hd]
    by_cases h21 : daily.length ≥ 21
    · rw [if_pos h21]
      refine ⟨trivial, by simp [h21], ?_, ?_⟩
      · constructor
        · intro hstr
          exact absurd hstr (by simp)
        · rintro ⟨hnot, _⟩
          exact absurd h21 hnot
      · constructor
        · intro hstr
          exact absurd hstr (by simp)
        · intro hlt
          omega
    · rw [if_neg h21]
      by_cases h14 : daily.length ≥ 14
      · rw [if_pos h14]
        refine ⟨trivial, ?_, by simp [h21, h14], ?_⟩
        · constructor
          · intro hstr
            exact absurd hstr (by simp)
          · intro hge
            exact absurd hge h21
        · constructor
          · intro hstr
            exact absurd hstr (by simp)
          · intro hlt
            omega
      · rw [if_neg h14]
        refine ⟨trivial, ?_, ?_, by simp; omega⟩
        · constructor
          · intro hstr
            exact absurd hstr (by simp)
          · intro hge
            exact absurd hge h21
        · constructor
          · intro hstr
            exact absurd hstr (by simp)
          · rintro ⟨_, hge⟩
            exact absurd hge h14

/-- daily series of 22 points with three samples per bucket. -/
def c4Daily : List WwRisk.DailyStat :=
  (List.range 22).map (fun i => ⟨(i : ℤ), 100, "pcr_target_avg_conc_lin", 3⟩)

/-- `c4Daily` with the two trailing (trimmed) buckets replaced. -/
def c4DailyB : List WwRisk.DailyStat :=
  (List.range 20).map (fun i => ⟨(i : ℤ), 100, "pcr_target_avg_conc_lin", 3⟩)
    ++ [⟨20, 999, "pcr_target_avg_conc_lin", 1⟩, ⟨21, 888, "pcr_target_avg_conc_lin", 1⟩]

/-- C4 witness: the amended theorem applied to a concrete dense 22-point
series (whose 20-point effective window is dense enough for `high` under
wastewater_risk), to a pair of series that differ only in the two trimmed
trailing buckets, and to the sparse 22-point series on which
cdc_wastewater grades `high` by point count alone. -/
theorem C4_witness :
    (WwRisk.compute_risk c4Daily 2).confidence = "high"
    ∧ (WwRisk.compute_risk c4Daily 2).trend = (WwRisk.compute_risk c4DailyB 2).trend
    ∧ (CdcWw.compute_risk cwDaily22).confidence = "high" := by
  have h := C4_confidence_rules
  refine ⟨?_, ?_, ?_⟩
  · exact ((h.1 c4Daily (by decide)).2.2.1).mpr (by decide)
  · exact (h.2.1 c4Daily c4DailyB (by decide) (by decide) (by decide)).2.1
  · exact ((h.2.2 cwDaily22 (by decide)).2.1).mpr (by decide)

end Uvceed

namespace Uvceed

/-! Claims C1 and C8: adaptive window selector behaviour. -/

theorem cw_points_used (daily : List CdcWw.DailyStat) :
    (CdcWw.compute_risk daily).points_used = daily.length := by
  by_cases hd : daily = []
  · subst hd
    rfl
  · simp only [CdcWw.compute_risk, if_neg hd]

theorem wr_go_first_adequate (fetch : ℕ → List WwRisk.Point) (w : ℕ) (ws : List ℕ)
    (hw : 14 ≤ (WwRisk.build_daily_median (fetch w)).length) :
    ∀ pre : List ℕ, (∀ p ∈ pre, (WwRisk.build_daily_median (fetch p)).length < 14) →
    ∀ best fetched,
      WwRisk.choose_adaptive_window_go fetch 14 8 (pre ++ w :: ws) best fetched =
        ((w, WwRisk.build_daily_median (fetch w),
          WwRisk.compute_risk (WwRisk.build_daily_median (fetch w)) 2),
         fetched ++ (pre ++ [w])) := by
  intro pre
  induction pre with
  | nil =>
    intro _ best fetched
    simp only [List.nil_append, WwRisk.choose_adaptive_window_go]
    rw [if_neg (by omega), if_pos hw]
  | cons p pre ih =>
    intro hpre best fetched
    have hp := hpre p (List.mem_cons_self _ _)
    simp only [List.cons_append, WwRisk.choose_adaptive_window_go, List.append_eq]
    by_cases h8 : (WwRisk.build_daily_median (fetch p)).length < 8
    · rw [if_pos h8, ih (fun q hq => hpre q (List.mem_cons_of_mem _ hq)) _ _]
      simp
    · rw [if_neg h8, if_neg (by omega),
        ih (fun q hq => hpre q (List.mem_cons_of_mem _ hq)) _ _]
      simp

theorem cw_go_first_adequate (fetch : ℕ → List CdcWw.DailyStat)
    (minR : ℕ) (windows0 : List ℕ) (w : ℕ) (ws : List ℕ)
    (hw : 14 ≤ (fetch w).length) :
    ∀ pre : List ℕ, (∀ p ∈ pre, (fetch p).length < 14) →
    ∀ best last_note fetched,
      CdcWw.choose_adaptive_window_go fetch 14 minR windows0 (pre ++ w :: ws)
        best last_note fetched =
        ((w, fetch w, CdcWw.compute_risk (fetch w)), fetched ++ (pre ++ [w])) := by
  intro pre
  induction pre with
  | nil =>
    intro _ best last_note fetched
    simp only [List.nil_append, CdcWw.choose_adaptive_window_go]
    rw [if_pos (by rw [cw_points_used]; exact hw)]
  | cons p pre ih =>
    intro hpre best last_note fetched
    have hp := hpre p (List.mem_cons_self _ _)
    simp only [List.cons_append, CdcWw.choose_adaptive_window_go, List.append_eq]
    rw [if_neg (by rw [cw_points_used]; omega)]
    by_cases hr : minR ≤ (CdcWw.compute_risk (fetch p)).points_used
    · rw [if_pos hr, ih (fun q hq => hpre q (List.mem_cons_of_mem _ hq)) _ _ _]
      simp
    · rw [if_neg hr, ih (fun q hq => hpre q (List.mem_cons_of_mem _ hq)) _ _ _]
      simp

/-- C1: both adaptive window selectors return, for the first candidate
window whose daily series reaches 14 points, exactly that window's series
and risk result, and their fetch trace stops at that window — later
candidates are neither fetched nor evaluated.  (Earlier candidates all have
fewer than 14 daily points, whether below or above the risk threshold 8.) -/
theorem C1_first_trend_capable_window :
    (∀ (fetch : ℕ → List WwRisk.Point) (pre : List ℕ) (w : ℕ) (ws : List ℕ),
      (∀ p ∈ pre, (WwRisk.build_daily_median (fetch p)).length < 14) →
      14 ≤ (WwRisk.build_daily_median (fetch w)).length →
      WwRisk.choose_adaptive_window fetch (pre ++ w :: ws) 14 8 =
        ((w, WwRisk.build_daily_median (fetch w),
          WwRisk.compute_risk (WwRisk.build_daily_median (fetch w)) 2),
         pre ++ [w]))
    ∧ (∀ (fetch : ℕ → List CdcWw.DailyStat) (pre : List ℕ) (w : ℕ) (ws : List ℕ),
      (∀ p ∈ pre, (fetch p).length < 14) →
      14 ≤ (fetch w).length →
      CdcWw.choose_adaptive_window fetch 14 8 (pre ++ w :: ws) =
        ((w, fetch w, CdcWw.compute_risk (fetch w)), pre ++ [w])) := by
  constructor
  · intro fetch pre w ws hpre hw
    unfold WwRisk.choose_adaptive_window
    rw [wr_go_first_adequate fetch w ws hw pre hpre _ _]
    simp
  · intro fetch pre w ws hpre hw
    unfold CdcWw.choose_adaptive_window
    rw [cw_go_first_adequate fetch 8 _ w ws hw pre hpre _ _ _]
    simp

/-- window-60 fetch result of Scenario D: ten distinct daily points. -/
def d60Points : List WwRisk.Point :=
  (List.range 10).map (fun i => ⟨some (i : ℤ), some 1, none⟩)

/-- window-90 fetch result of Scenario D: sixteen distinct daily points. -/
def d90Points : List WwRisk.Point :=
  (List.range 16).map (fun i => ⟨some (i : ℤ), some 1, none⟩)

/-- Scenario D fetch collaborator. -/
def scenarioD_fetch : ℕ → List WwRisk.Point :=
  fun days => if days = 60 then d60Points else if days = 90 then d90Points else []

/-- C1 witness: Scenario D — windows [60, 90, 120, 180] with 10 points at
window 60 and 16 points at window 90: the selector returns window 90 and
fetches exactly [60, 90]. -/
theorem C1_witness :
    (WwRisk.choose_adaptive_window scenarioD_fetch [60, 90, 120, 180] 14 8).1.1 = 90
    ∧ (WwRisk.choose_adaptive_window scenarioD_fetch [60, 90, 120, 180] 14 8).2 = [60, 90] := by
  have h := C1_first_trend_capable_window
  have hs := h.1 scenarioD_fetch [60] 90 [120, 180] (by decide) (by decide)
  exact ⟨congrArg (fun x => x.1.1) hs, congrArg Prod.snd hs⟩

theorem wr_go_trace (fetch : ℕ → List WwRisk.Point) (mt mr : ℕ) :
    ∀ (ds : List ℕ) best fetched, ∃ t u,
      (WwRisk.choose_adaptive_window_go fetch mt mr ds best fetched).2 = fetched ++ t
      ∧ ds = t ++ u := by
  intro ds
  induction ds with
  | nil =>
    intro best fetched
    exact ⟨[], [], by simp [WwRisk.choose_adaptive_window_go], rfl⟩
  | cons d ds ih =>
    intro best fetched
    simp only [WwRisk.choose_adaptive_window_go]
    by_cases h8 : (WwRisk.build_daily_median (fetch d)).length < mr
    · rw [if_pos h8]
      obtain ⟨t, u, ht, hu⟩ := ih _ (fetched ++ [d])
      exact ⟨d :: t, u, by rw [ht]; simp, by simp [hu]⟩
    · rw [if_neg h8]
      by_cases hmt : mt ≤ (WwRisk.build_daily_median (fetch d)).length
      · rw [if_pos hmt]
        exact ⟨[d], ds, by simp, rfl⟩
      · rw [if_neg hmt]
        obtain ⟨t, u, ht, hu⟩ := ih _ (fetched ++ [d])
        exact ⟨d :: t, u, by rw [ht]; simp, by simp [hu]⟩

theorem cw_go_trace (fetch : ℕ → List CdcWw.DailyStat) (mt mr : ℕ)
    (windows0 : List ℕ) :
    ∀ (ds : List ℕ) best last_note fetched,
      (∃ t u, (CdcWw.choose_adaptive_window_go fetch mt mr windows0 ds
          best last_note fetched).2 = fetched ++ t ∧ ds = t ++ u)
      ∨ (∃ w, windows0.getLast? = some w ∧
          (CdcWw.choose_adaptive_window_go fetch mt mr windows0 ds
            best last_note fetched).2 = fetched ++ (ds ++ [w])) := by
  intro ds
  induction ds with
  | nil =>
    intro best last_note fetched
    simp only [CdcWw.choose_adaptive_window_go]
    match best with
    | some b => exact Or.inl ⟨[], [], by simp, rfl⟩
    | none =>
      match hl : windows0.getLast? with
      | some w => exact Or.inr ⟨w, rfl, by simp⟩
      | none => exact Or.inl ⟨[], [], by simp, rfl⟩
  | cons d ds ih =>
    intro best last_note fetched
    simp only [CdcWw.choose_adaptive_window_go]
    by_cases hmt : mt ≤ (CdcWw.compute_risk (fetch d)).points_used
    · rw [if_pos hmt]
      exact Or.inl ⟨[d], ds, by simp, rfl⟩
    · rw [if_neg hmt]
      by_cases hmr : mr ≤ (CdcWw.compute_risk (fetch d)).points_used
      · rw [if_pos hmr]
        rcases ih _ _ (fetched ++ [d]) with ⟨t, u, ht, hu⟩ | ⟨w, hw, ht⟩
        · exact Or.inl ⟨d :: t, u, by rw [ht]; simp, by simp [hu]⟩
        · exact Or.inr ⟨w, hw, by rw [ht]; simp⟩
      · rw [if_neg hmr]
        rcases ih _ _ (fetched ++ [d]) with ⟨t, u, ht, hu⟩ | ⟨w, hw, ht⟩
        · exact Or.inl ⟨d :: t, u, by rw [ht]; simp, by simp [hu]⟩
        · exact Or.inr ⟨w, hw, by rw [ht]; simp⟩

/-- C8 counterexample: with a fetch collaborator that returns no data,
`cdc_wastewater.choose_adaptive_window` over the single candidate window
[60] invokes the fetch twice — once in the loop and once more in the
terminal fallback — exceeding the claimed at-most-one-invocation-per-window
bound. -/
theorem C8_counterexample :
    (CdcWw.choose_adaptive_window (fun _ => []) 14 8 [60]).2 = [60, 60]
    ∧ ¬((CdcWw.choose_adaptive_window (fun _ => []) 14 8 [60]).2.length ≤
        ([60] : List ℕ).length) := by
  exact ⟨by decide, by decide⟩

/-- C8 (amended): the wastewater_risk selector's fetch trace is a prefix of
the candidate list (at most one fetch per candidate window, at most
`len(windows)` in total); the cdc_wastewater selector's fetch trace is
either such a prefix or, when the loop finishes without any retained
candidate, the whole candidate list followed by one extra re-fetch of the
last window — at most `len(windows) + 1` fetches in total. -/
theorem C8_fetch_trace_bounds :
    (∀ (fetch : ℕ → List WwRisk.Point) (windows : List ℕ) (mt mr : ℕ),
      ∃ t, windows = (WwRisk.choose_adaptive_window fetch windows mt mr).2 ++ t)
    ∧ (∀ (fetch : ℕ → List WwRisk.Point) (windows : List ℕ) (mt mr : ℕ),
      (WwRisk.choose_adaptive_window fetch windows mt mr).2.length ≤ windows.length)
    ∧ (∀ (fetch : ℕ → List CdcWw.DailyStat) (mt mr : ℕ) (windows : List ℕ),
      (∃ t, windows = (CdcWw.choose_adaptive_window fetch mt mr windows).2 ++ t)
      ∨ (∃ w, windows.getLast? = some w ∧
        (CdcWw.choose_adaptive_window fetch mt mr windows).2 = windows ++ [w]))
    ∧ (∀ (fetch : ℕ → List CdcWw.DailyStat) (mt mr : ℕ) (windows : List ℕ),
      (CdcWw.choose_adaptive_window fetch mt mr windows).2.length ≤
        windows.length + 1) := by
  have hwr : ∀ (fetch : ℕ → List WwRisk.Point) (windows : List ℕ) (mt mr : ℕ),
      ∃ t, windows = (WwRisk.choose_adaptive_window fetch windows mt mr).2 ++ t := by
    intro fetch windows mt mr
    obtain ⟨t, u, ht, hu⟩ := wr_go_trace fetch mt mr windows
      ((windows.getLast?).getD 0, [], none) []
    unfold WwRisk.choose_adaptive_window
    rw [ht]
    exact ⟨u, by simpa using hu⟩
  have hcw : ∀ (fetch : ℕ → List CdcWw.DailyStat) (mt mr : ℕ) (windows : List ℕ),
      (∃ t, windows = (CdcWw.choose_adaptive_window fetch mt mr windows).2 ++ t)
      ∨ (∃ w, windows.getLast? = some w ∧
        (CdcWw.choose_adaptive_window fetch mt mr windows).2 = windows ++ [w]) := by
    intro fetch mt mr windows
    rcases cw_go_trace fetch mt mr windows windows none none []
      with ⟨t, u, ht, hu⟩ | ⟨w, hw, ht⟩
    · left
      unfold CdcWw.choose_adaptive_window
      rw [ht]
      exact ⟨u, by simpa using hu⟩
    · right
      unfold CdcWw.choose_adaptive_window
      rw [ht]
      exact ⟨w, hw, by simp⟩
  refine ⟨hwr, ?_, hcw, ?_⟩
  · intro fetch windows mt mr
    obtain ⟨t, ht⟩ := hwr fetch windows mt mr
    have := congrArg List.length ht
    simp at this
    omega
  · intro fetch mt mr windows
    rcases hcw fetch mt mr windows with ⟨t, ht⟩ | ⟨w, _, ht⟩
    · have := congrArg List.length ht
      simp at this
      omega
    · have := congrArg List.length ht
      simp at this
      omega

end Uvceed

namespace Uvceed

/-! Claim C7: rollup conservativeness. -/

theorem level_foldl_acc_le :
    ∀ (l : List CdcWw.PathogenResult) (acc : String),
      CdcWw.rank_level acc ≤ CdcWw.rank_level (l.foldl CdcWw.max_level_step acc) := by
  intro l
  induction l with
  | nil => intro acc; exact le_refl _
  | cons x l ih =>
    intro acc
    refine le_trans ?_ (ih (CdcWw.max_level_step acc x))
    unfold CdcWw.max_level_step
    split <;> omega

theorem level_foldl_mem_le :
    ∀ (l : List CdcWw.PathogenResult) (acc : String), ∀ r ∈ l,
      CdcWw.rank_level r.risk ≤ CdcWw.rank_level (l.foldl CdcWw.max_level_step acc) := by
  intro l
  induction l with
  | nil => intro acc r hr; simp at hr
  | cons x l ih =>
    intro acc r hr
    rcases List.mem_cons.mp hr with h | h
    · subst h
      refine le_trans ?_ (level_foldl_acc_le l (CdcWw.max_level_step acc r))
      unfold CdcWw.max_level_step
      split <;> omega
    · exact ih (CdcWw.max_level_step acc x) r h

theorem conf_foldl_le :
    ∀ (cs : List String) (c : String),
      (CdcWw.rank_conf (cs.foldl CdcWw.min_conf_step c) ≤ CdcWw.rank_conf c)
      ∧ ∀ x ∈ cs, CdcWw.rank_conf (cs.foldl CdcWw.min_conf_step c) ≤ CdcWw.rank_conf x := by
  intro cs
  induction cs with
  | nil => intro c; exact ⟨le_refl _, by intro x hx; simp at hx⟩
  | cons y cs ih =>
    intro c
    have hsc : CdcWw.rank_conf (CdcWw.min_conf_step c y) ≤ CdcWw.rank_conf c := by
      unfold CdcWw.min_conf_step
      split <;> omega
    have hsy : CdcWw.rank_conf (CdcWw.min_conf_step c y) ≤ CdcWw.rank_conf y := by
      unfold CdcWw.min_conf_step
      split <;> omega
    refine ⟨le_trans (ih (CdcWw.min_conf_step c y)).1 hsc, ?_⟩
    intro x hx
    rcases List.mem_cons.mp hx with h | h
    · subst h
      exact le_trans (ih (CdcWw.min_conf_step c x)).1 hsy
    · exact (ih (CdcWw.min_conf_step c y)).2 x h

theorem foldl_max_mem : ∀ (ss : List ℚ) (s : ℚ), ss.foldl max s ∈ s :: ss := by
  intro ss
  induction ss with
  | nil => intro s; simp
  | cons x ss ih =>
    intro s
    simp only [List.foldl_cons]
    rcases List.mem_cons.mp (ih (max s x)) with h1 | h1
    · rcases max_choice s x with hm | hm
      · exact List.mem_cons.mpr (Or.inl (h1.trans hm))
      · exact List.mem_cons.mpr (Or.inr (List.mem_cons.mpr (Or.inl (h1.trans hm))))
    · exact List.mem_cons.mpr (Or.inr (List.mem_cons.mpr (Or.inr h1)))

theorem foldl_max_le :
    ∀ (ss : List ℚ) (s : ℚ), s ≤ ss.foldl max s ∧ ∀ x ∈ ss, x ≤ ss.foldl max s := by
  intro ss
  induction ss with
  | nil => intro s; exact ⟨le_refl _, by intro x hx; simp at hx⟩
  | cons y ss ih =>
    intro s
    simp only [List.foldl_cons]
    refine ⟨le_trans (le_max_left s y) (ih (max s y)).1, ?_⟩
    intro x hx
    rcases List.mem_cons.mp hx with h | h
    · subst h
      exact le_trans (le_max_right s x) (ih (max s x)).1
    · exact (ih (max s y)).2 x h

theorem pyRound6_div_intCast (z : ℤ) :
    CdcWw.pyRound6 ((z : ℚ) / 1000000) = (z : ℚ) / 1000000 := by
  have h : ((z : ℚ) / 1000000) * 1000000 = (z : ℚ) := by
    rw [div_mul_cancel₀]
    norm_num
  simp only [CdcWw.pyRound6, CdcWw.roundHalfEven, h, Int.floor_intCast]
  rw [if_pos (by rw [sub_self]; norm_num)]

/-- C7: for every non-empty per-pathogen result list whose composite scores
are 6-decimal values (as `_composite_score` produces), the rollup is
conservative: `overall_level` is at least as highly ranked as every
individual risk, `overall_confidence` is at most as highly ranked as every
individual confidence among inputs with data, and `overall_score` is the
maximum composite score among the inputs. -/
theorem C7_rollup_conservative :
    ∀ results : List CdcWw.PathogenResult, results ≠ [] →
      (∀ r ∈ results, ∃ z : ℤ, r.composite_score = (z : ℚ) / 1000000) →
      (∀ r ∈ results,
        CdcWw.rank_level r.risk ≤
          CdcWw.rank_level (CdcWw.rollup_overall results).overall_level)
      ∧ (∀ r ∈ results, 0 < r.daily_points →
        CdcWw.rank_conf (CdcWw.rollup_overall results).overall_confidence ≤
          CdcWw.rank_conf r.confidence)
      ∧ (CdcWw.rollup_overall results).overall_score ∈
          results.map (fun r => r.composite_score)
      ∧ (∀ r ∈ results,
        r.composite_score ≤ (CdcWw.rollup_overall results).overall_score) := by
  intro results hne hden
  match results with
  | [] => exact absurd rfl hne
  | r0 :: rs =>
    have hscore : (CdcWw.rollup_overall (r0 :: rs)).overall_score =
        CdcWw.pyRound6 ((rs.map (fun r => r.composite_score)).foldl max
          r0.composite_score) := by
      simp only [CdcWw.rollup_overall, List.map_cons]
    have hmem : ((rs.map (fun r => r.composite_score)).foldl max r0.composite_score) ∈
        (r0 :: rs).map (fun r => r.composite_score) := by
      simpa using foldl_max_mem (rs.map (fun r => r.composite_score)) r0.composite_score
    obtain ⟨rm, hrm, hrmeq⟩ := List.mem_map.mp hmem
    obtain ⟨z, hz⟩ := hden rm hrm
    have hfold : ((rs.map (fun r => r.composite_score)).foldl max r0.composite_score) =
        (z : ℚ) / 1000000 := by rw [← hrmeq, hz]
    have hround : (CdcWw.rollup_overall (r0 :: rs)).overall_score =
        ((rs.map (fun r => r.composite_score)).foldl max r0.composite_score) := by
      rw [hscore, hfold, pyRound6_div_intCast]
    refine ⟨?_, ?_, ?_, ?_⟩
    · intro r hr
      have hlv : (CdcWw.rollup_overall (r0 :: rs)).overall_level =
          (r0 :: rs).foldl CdcWw.max_level_step "unknown" := by
        simp only [CdcWw.rollup_overall]
      rw [hlv]
      exact level_foldl_mem_le (r0 :: rs) "unknown" r hr
    · intro r hr hdp
      have hconf : r.confidence ∈
          (((r0 :: rs).filter (fun r => decide (0 < r.daily_points))).map
            (fun r => r.confidence)) :=
        List.mem_map.mpr ⟨r, List.mem_filter.mpr ⟨hr, by simpa using hdp⟩, rfl⟩
      rcases hc : ((r0 :: rs).filter (fun r => decide (0 < r.daily_points))).map
          (fun r => r.confidence) with _ | ⟨c, cs⟩
      · rw [hc] at hconf
        simp at hconf
      · rw [hc] at hconf
        have : (CdcWw.rollup_overall (r0 :: rs)).overall_confidence =
            cs.foldl CdcWw.min_conf_step c := by
          simp only [CdcWw.rollup_overall, hc]
        rw [this]
        rcases List.mem_cons.mp hconf with h | h
        · rw [← h] at *
          exact (conf_foldl_le cs r.confidence).1
        · exact (conf_foldl_le cs c).2 _ h
    · rw [hround]
      exact hmem
    · intro r hr
      rw [hround]
      rcases List.mem_cons.mp hr with h | h
      · subst h
        exact (foldl_max_le (rs.map (fun r => r.composite_score)) r.composite_score).1
      · exact (foldl_max_le (rs.map (fun x => x.composite_score))
          r0.composite_score).2 _ (List.mem_map.mpr ⟨r, h, rfl⟩)

/-- two concrete per-pathogen results for the rollup witness. -/
def c7Results : List CdcWw.PathogenResult :=
  [⟨"covid", "high", "rising", "moderate", 20, 1⟩,
   ⟨"flu_a", "low", "stable", "low", 5, 0⟩]

/-- C7 witness: the theorem applied to a concrete two-result list. -/
theorem C7_witness :
    CdcWw.rank_level "high" ≤
      CdcWw.rank_level (CdcWw.rollup_overall c7Results).overall_level
    ∧ CdcWw.rank_conf (CdcWw.rollup_overall c7Results).overall_confidence ≤
      CdcWw.rank_conf "low"
    ∧ (CdcWw.rollup_overall c7Results).overall_score ∈
      c7Results.map (fun r => r.composite_score) := by
  have hden : ∀ r ∈ c7Results, ∃ z : ℤ, r.composite_score = (z : ℚ) / 1000000 := by
    intro r hr
    rcases List.mem_cons.mp hr with h | h
    · exact ⟨1000000, by rw [h]; norm_num⟩
    · rcases List.mem_cons.mp h with h2 | h2
      · exact ⟨0, by rw [h2]; norm_num⟩
      · simp at h2
  have h := C7_rollup_conservative c7Results (by decide) hden
  exact ⟨h.1 ⟨"covid", "high", "rising", "moderate", 20, 1⟩ (by decide),
    h.2.1 ⟨"flu_a", "low", "stable", "low", 5, 0⟩ (by decide) (by decide),
    h.2.2.1⟩

end Uvceed

namespace Uvceed

/-! Claim C9: revision resolution keeps the maximum issue per epiweek. -/

theorem assocFind_bestInsert (ew : ℤ) (r : Ilinet.EpiRow) :
    ∀ (best : List (ℤ × Ilinet.EpiRow)) (k : ℤ),
      Ilinet.assocFind k (Ilinet.bestInsert ew r best) =
        if k = ew then
          (match Ilinet.assocFind ew best with
           | none => some r
           | some v => if Ilinet.issue0 v < Ilinet.issue0 r then some r else some v)
        else Ilinet.assocFind k best := by
  intro best
  induction best with
  | nil =>
    intro k
    by_cases hk : k = ew
    · subst hk
      simp [Ilinet.bestInsert, Ilinet.assocFind]
    · simp [Ilinet.bestInsert, Ilinet.assocFind, hk]
  | cons kv rest ih =>
    obtain ⟨a, v⟩ := kv
    intro k
    by_cases ha : a = ew
    · subst ha
      simp only [Ilinet.bestInsert, if_pos rfl]
      by_cases hvr : Ilinet.issue0 v < Ilinet.issue0 r
      · rw [if_pos hvr]
        by_cases hk : k = a
        · subst hk
          simp [Ilinet.assocFind, hvr]
        · simp [Ilinet.assocFind, hk]
      · rw [if_neg hvr]
        by_cases hk : k = a
        · subst hk
          simp [Ilinet.assocFind, hvr]
        · simp [Ilinet.assocFind, hk]
    · simp only [Ilinet.bestInsert, if_neg ha]
      by_cases hk : k = a
      · subst hk
        simp [Ilinet.assocFind, ha]
      · simp [Ilinet.assocFind, hk, ih k, Ne.symm ha]

/-- loop invariant of `_latest_issue_per_epiweek`: every dict entry is a
processed row of its own epiweek carrying the maximum issue seen so far,
and every processed row with a parseable epiweek has an entry. -/
def C9Inv (best : List (ℤ × Ilinet.EpiRow)) (ps : List Ilinet.EpiRow) : Prop :=
  ∀ k : ℤ,
    (∀ v, Ilinet.assocFind k best = some v →
      v.epiweek = some k ∧ v ∈ ps ∧
        ∀ x ∈ ps, x.epiweek = some k → Ilinet.issue0 x ≤ Ilinet.issue0 v)
    ∧ (Ilinet.assocFind k best = none → ∀ x ∈ ps, x.epiweek ≠ some k)

theorem C9Inv_step (best : List (ℤ × Ilinet.EpiRow)) (ps : List Ilinet.EpiRow)
    (row : Ilinet.EpiRow) (h : C9Inv best ps) :
    C9Inv (Ilinet.bestStep best row) (ps ++ [row]) := by
  intro k
  unfold Ilinet.bestStep
  cases hew : row.epiweek with
  | none =>
    constructor
    · intro v hv
      obtain ⟨h1, h2, h3⟩ := (h k).1 v hv
      refine ⟨h1, List.mem_append_left _ h2, ?_⟩
      intro x hx hxk
      rcases List.mem_append.mp hx with hx | hx
      · exact h3 x hx hxk
      · simp only [List.mem_singleton] at hx
        subst hx
        rw [hew] at hxk
        exact absurd hxk (by simp)
    · intro hn x hx hxk
      rcases List.mem_append.mp hx with hx | hx
      · exact (h k).2 hn x hx hxk
      · simp only [List.mem_singleton] at hx
        subst hx
        rw [hew] at hxk
        exact absurd hxk (by simp)
  | some ew =>
    rw [assocFind_bestInsert]
    by_cases hk : k = ew
    · subst hk
      rw [if_pos rfl]
      cases hfind : Ilinet.assocFind k best with
      | none =>
        simp only [hfind]
        constructor
        · intro v hv
          have hvr : v = row := by
            simpa using hv.symm
          subst hvr
          refine ⟨hew, List.mem_append_right _ (by simp), ?_⟩
          intro x hx hxk
          rcases List.mem_append.mp hx with hx | hx
          · exact absurd hxk ((h k).2 hfind x hx)
          · simp only [List.mem_singleton] at hx
            subst hx
            exact le_refl _
        · intro hn
          exact absurd hn (by simp)
      | some v0 =>
        simp only [hfind]
        obtain ⟨h1, h2, h3⟩ := (h k).1 v0 hfind
        by_cases hlt : Ilinet.issue0 v0 < Ilinet.issue0 row
        · rw [if_pos hlt]
          constructor
          · intro v hv
            have hvr : v = row := by simpa using hv.symm
            subst hvr
            refine ⟨hew, List.mem_append_right _ (by simp), ?_⟩
            intro x hx hxk
            rcases List.mem_append.mp hx with hx | hx
            · exact le_trans (h3 x hx hxk) (le_of_lt hlt)
            · simp only [List.mem_singleton] at hx
              subst hx
              exact le_refl _
          · intro hn
            exact absurd hn (by simp)
        · rw [if_neg hlt]
          constructor
          · intro v hv
            have hvr : v = v0 := by simpa using hv.symm
            subst hvr
            refine ⟨h1, List.mem_append_left _ h2, ?_⟩
            intro x hx hxk
            rcases List.mem_append.mp hx with hx | hx
            · exact h3 x hx hxk
            · simp only [List.mem_singleton] at hx
              subst hx
              omega
          · intro hn
            exact absurd hn (by simp)
    · rw [if_neg hk]
      constructor
      · intro v hv
        obtain ⟨h1, h2, h3⟩ := (h k).1 v hv
        refine ⟨h1, List.mem_append_left _ h2, ?_⟩
        intro x hx hxk
        rcases List.mem_append.mp hx with hx | hx
        · exact h3 x hx hxk
        · simp only [List.mem_singleton] at hx
          subst hx
          rw [hew] at hxk
          exact absurd hxk (by simp [hk, Ne.symm hk])
      · intro hn x hx hxk
        rcases List.mem_append.mp hx with hx | hx
        · exact (h k).2 hn x hx hxk
        · simp only [List.mem_singleton] at hx
          subst hx
          rw [hew] at hxk
          exact absurd hxk (by simp [hk, Ne.symm hk])

theorem C9Inv_fold :
    ∀ (rows : List Ilinet.EpiRow) (best : List (ℤ × Ilinet.EpiRow))
      (ps : List Ilinet.EpiRow), C9Inv best ps →
      C9Inv (rows.foldl Ilinet.bestStep best) (ps ++ rows) := by
  intro rows
  induction rows with
  | nil =>
    intro best ps h
    simpa using h
  | cons r rows ih =>
    intro best ps h
    have h2 := ih (Ilinet.bestStep best r) (ps ++ [r]) (C9Inv_step best ps r h)
    simpa using h2

theorem bestFold_spec (rows : List Ilinet.EpiRow) (k : ℤ) (v : Ilinet.EpiRow)
    (h : Ilinet.assocFind k (Ilinet.bestFold rows) = some v) :
    v.epiweek = some k ∧ v ∈ rows ∧
      ∀ x ∈ rows, x.epiweek = some k → Ilinet.issue0 x ≤ Ilinet.issue0 v := by
  have h0 : C9Inv [] [] := by
    intro k
    constructor
    · intro v hv
      simp [Ilinet.assocFind] at hv
    · intro _ x hx
      simp at hx
  have h1 := C9Inv_fold rows [] [] h0
  simp only [List.nil_append] at h1
  exact (h1 k).1 v h

/-- C9: every row kept by `_latest_issue_per_epiweek` is an input row with
a parseable epiweek whose issue id is maximal among the input rows of the
same epiweek; and for the two-revision scenario (issues 1 and 2 on the same
epiweek) only the issue-2 row survives, under either input order. -/
theorem C9_latest_issue_resolution :
    (∀ (rows : List Ilinet.EpiRow) (r : Ilinet.EpiRow),
      r ∈ Ilinet.latest_issue_per_epiweek rows →
      r ∈ rows ∧ r.epiweek ≠ none ∧
        ∀ r2 ∈ rows, r2.epiweek = r.epiweek →
          Ilinet.issue0 r2 ≤ Ilinet.issue0 r)
    ∧ (∀ (e : ℤ) (v1 v2 : Option ℚ),
      Ilinet.latest_issue_per_epiweek
          [⟨some e, some 1, v1⟩, ⟨some e, some 2, v2⟩] = [⟨some e, some 2, v2⟩]
      ∧ Ilinet.latest_issue_per_epiweek
          [⟨some e, some 2, v2⟩, ⟨some e, some 1, v1⟩] = [⟨some e, some 2, v2⟩]) := by
  constructor
  · intro rows r hr
    unfold Ilinet.latest_issue_per_epiweek at hr
    obtain ⟨k, _, hfind⟩ := List.mem_filterMap.mp hr
    obtain ⟨h1, h2, h3⟩ := bestFold_spec rows k r hfind
    refine ⟨h2, by rw [h1]; simp, ?_⟩
    intro r2 hr2 hk2
    rw [h1] at hk2
    exact h3 r2 hr2 hk2
  · intro e v1 v2
    constructor
    · show Ilinet.latest_issue_per_epiweek _ = _
      simp [Ilinet.latest_issue_per_epiweek, Ilinet.bestFold, Ilinet.bestStep,
        Ilinet.bestInsert, Ilinet.assocFind, Ilinet.issue0, pySorted, insertAsc]
    · show Ilinet.latest_issue_per_epiweek _ = _
      simp [Ilinet.latest_issue_per_epiweek, Ilinet.bestFold, Ilinet.bestStep,
        Ilinet.bestInsert, Ilinet.assocFind, Ilinet.issue0, pySorted, insertAsc]

/-- C9 witness: the theorem applied to a concrete two-revision input. -/
theorem C9_witness :
    Ilinet.issue0 ⟨some 7, some 1, none⟩ ≤ Ilinet.issue0 ⟨some 7, some 4, some 2⟩ := by
  have h := (C9_latest_issue_resolution.1
    [⟨some 7, some 1, none⟩, ⟨some 7, some 4, some 2⟩]
    ⟨some 7, some 4, some 2⟩ (by decide))
  exact h.2.2 ⟨some 7, some 1, none⟩ (by decide) (by decide)

end Uvceed
